import Mathlib

/-!
Verification of the cache coordination layer and API client of the
govee2mqtt `undoc_api` module.

Durations and wall-clock timestamps are modelled as `Nat` seconds
(milliseconds where the source works in milliseconds, noted locally).
The caching engine (`crate::cache`) is not part of the provided source
tree; its behaviour is modelled from the specification, as flagged on
each such definition. Everything else is translated from
`src/undoc_api.rs`.
-/

set_option autoImplicit false

namespace Govee

/-- Request options, mirroring `CacheGetOptions` as constructed at each
`cache_get` call site in `undoc_api.rs`. TTLs are in seconds. -/
structure CacheGetOptions where
  topic : String
  key : String
  soft_ttl : Nat
  hard_ttl : Nat
  negative_ttl : Nat
  allow_stale : Bool
deriving Repr, DecidableEq

/-- Result of a computation, mirroring `CacheComputeResult` from the
cache module as used by `undoc_api.rs`: a bare value, or a value paired
with an explicit TTL (seconds) that overrides the configured TTLs. -/
inductive CacheComputeResult (α : Type) where
  | Value : α → CacheComputeResult α
  | WithTtl : α → Nat → CacheComputeResult α
deriving Repr, DecidableEq

/-- Mirrors `CacheComputeResult::into_inner`: extract the value,
dropping any explicit TTL. -/
def CacheComputeResult.into_inner {α : Type} : CacheComputeResult α → α
  | .Value v => v
  | .WithTtl v _ => v

/-- Modelled from the spec: a cache entry for a (topic, key) pair.
`payload` is either a successful value or the marker of a remembered
failure (a negative entry, which replays the recorded error).
Timestamps are absolute wall-clock seconds. -/
structure CacheEntry (α ε : Type) where
  topic : String
  key : String
  payload : Except ε α
  created_at : Nat
  soft_expiry : Nat
  hard_expiry : Nat

/-- Modelled from the spec: the Entry Store holds at most one entry per
(topic, key); modelled as an association list where `storePut` replaces
wholesale. -/
def Store (α ε : Type) : Type := List (CacheEntry α ε)

/-- Modelled from the spec: `get(topic, key) -> Option<CacheEntry>`. -/
def storeGet {α ε : Type} (st : Store α ε) (topic key : String) :
    Option (CacheEntry α ε) :=
  st.find? (fun e => e.topic == topic && e.key == key)

/-- Modelled from the spec: `put(entry)`; the latest write wins, the
previous entry for the same (topic, key) is replaced wholesale. -/
def storePut {α ε : Type} (st : Store α ε) (e : CacheEntry α ε) :
    Store α ε :=
  e :: st.filter (fun x => !(x.topic == e.topic && x.key == e.key))

/-- Modelled from the spec: `delete(topic, key)`, unconditional. -/
def storeDelete {α ε : Type} (st : Store α ε) (topic key : String) :
    Store α ε :=
  st.filter (fun x => !(x.topic == topic && x.key == key))

/-- Modelled from the spec: the six freshness states of the Freshness
Policy. -/
inductive Freshness where
  | Absent
  | Fresh
  | Stale
  | Expired
  | NegativeHit
  | NegativeExpired
deriving Repr, DecidableEq

/-- Modelled from the spec: the Freshness Policy, a pure function of
(entry-or-absent, now, options). A negative entry is a hit while its
age is within the caller's `negative_ttl`; a positive entry is fresh
while `now < soft_expiry`, stale while `soft_expiry <= now <
hard_expiry`, expired once `now >= hard_expiry`. -/
def classify {α ε : Type} (e : Option (CacheEntry α ε)) (now : Nat)
    (opts : CacheGetOptions) : Freshness :=
  match e with
  | none => .Absent
  | some ent =>
    match ent.payload with
    | .error _ =>
      if now < ent.created_at + opts.negative_ttl then .NegativeHit
      else .NegativeExpired
    | .ok _ =>
      if now < ent.soft_expiry then .Fresh
      else if now < ent.hard_expiry then .Stale
      else .Expired

/-- Modelled from the spec: errors surfaced by `get_or_compute`. A
foreground failure is surfaced tagged as freshly computed; a negative
hit replays the identical recorded failure tagged as a cache replay. -/
inductive CacheError (ε : Type) where
  | computed : ε → CacheError ε
  | replay : ε → CacheError ε
deriving Repr, DecidableEq

/-- Modelled from the spec: the entry written after a successful
computation. A bare value uses `now + soft_ttl` and `now + hard_ttl`
from the current caller's options; an explicit TTL sets both
`soft_expiry` and `hard_expiry` to `now + ttl`, overriding the
configured tiers entirely. -/
def mkPositiveEntry {α ε : Type} (opts : CacheGetOptions) (now : Nat) :
    CacheComputeResult α → CacheEntry α ε
  | .Value v =>
    ⟨opts.topic, opts.key, .ok v, now, now + opts.soft_ttl,
      now + opts.hard_ttl⟩
  | .WithTtl v ttl =>
    ⟨opts.topic, opts.key, .ok v, now, now + ttl, now + ttl⟩

/-- Modelled from the spec: the negative entry written after a failed
computation, with expiry `now + negative_ttl`. -/
def mkNegativeEntry {α ε : Type} (opts : CacheGetOptions) (now : Nat)
    (err : ε) : CacheEntry α ε :=
  ⟨opts.topic, opts.key, .error err, now, now + opts.negative_ttl,
    now + opts.negative_ttl⟩

/-- Outcome of one `cache_get` call in the sequential model: the result
returned to the caller, the store after the call, whether the supplied
Computation was invoked and awaited in the foreground, and whether a
detached background refresh was started. -/
structure CacheGetOutcome (α ε : Type) where
  result : Except (CacheError ε) α
  store : Store α ε
  invoked : Bool
  background : Bool

/-- Modelled from the spec: run the Computation in the foreground and
write its result (positive or negative) back to the Entry Store before
returning; a failure is written to the negative cache and surfaced
tagged as freshly computed. -/
def runCompute {α ε : Type} (opts : CacheGetOptions) (now : Nat)
    (st : Store α ε) (compute : Except ε (CacheComputeResult α)) :
    CacheGetOutcome α ε :=
  match compute with
  | .ok r => ⟨.ok r.into_inner, storePut st (mkPositiveEntry opts now r),
      true, false⟩
  | .error e => ⟨.error (.computed e),
      storePut st (mkNegativeEntry opts now e), true, false⟩

/-- Modelled from the spec: the Entry Store effect of a detached
background refresh; its result updates the store but its failure does
not propagate to the caller that triggered it. -/
def applyBackgroundRefresh {α ε : Type} (opts : CacheGetOptions)
    (now : Nat) (st : Store α ε)
    (compute : Except ε (CacheComputeResult α)) : Store α ε :=
  match compute with
  | .ok r => storePut st (mkPositiveEntry opts now r)
  | .error e => storePut st (mkNegativeEntry opts now e)

/-- Modelled from the spec: `get_or_compute` (called `cache_get` at the
call sites), as a sequential function of the store state, the current
time, and the result the Computation would produce if invoked now.
Fresh entries are served as-is; a stale entry with `allow_stale` is
served while a detached refresh starts; a stale entry without
`allow_stale`, an expired entry, an absent entry and an expired
negative entry all recompute synchronously; a negative hit replays the
recorded failure without invoking the Computation. -/
def cache_get {α ε : Type} (opts : CacheGetOptions) (now : Nat)
    (st : Store α ε) (compute : Except ε (CacheComputeResult α)) :
    CacheGetOutcome α ε :=
  match storeGet st opts.topic opts.key with
  | none => runCompute opts now st compute
  | some ent =>
    match ent.payload with
    | .error e =>
      if now < ent.created_at + opts.negative_ttl then
        ⟨.error (.replay e), st, false, false⟩
      else runCompute opts now st compute
    | .ok v =>
      if now < ent.soft_expiry then ⟨.ok v, st, false, false⟩
      else if now < ent.hard_expiry then
        if opts.allow_stale then
          ⟨.ok v, applyBackgroundRefresh opts now st compute, false, true⟩
        else runCompute opts now st compute
      else runCompute opts now st compute

/-- Options of `get_iot_key` in `undoc_api.rs`: both TTLs HALF_DAY. -/
def iotKeyOptions : CacheGetOptions :=
  ⟨"undoc-api", "iot-key", 3600 * 12, 3600 * 12, 10, false⟩

/-- Options of `login_account_cached` in `undoc_api.rs`: soft and hard
TTL both HALF_DAY, negative_ttl ten seconds, no stale service. -/
def loginAccountOptions : CacheGetOptions :=
  ⟨"undoc-api", "account-info", 3600 * 12, 3600 * 12, 10, false⟩

/-- Options of `login_community` in `undoc_api.rs`: soft_ttl ONE_DAY,
hard_ttl HALF_DAY (as written in the source), negative_ttl ten
seconds, no stale service. -/
def loginCommunityOptions : CacheGetOptions :=
  ⟨"undoc-api", "community-login", 86400, 3600 * 12, 10, false⟩

/-- Options of `get_scenes_for_device` in `undoc_api.rs`: soft_ttl
ONE_DAY, hard_ttl ONE_WEEK, negative_ttl one second, stale service
allowed. The key embeds the device sku. -/
def getScenesOptions (sku : String) : CacheGetOptions :=
  ⟨"undoc-api", "scenes-" ++ sku, 86400, 86400 * 7, 1, true⟩

/-- Options of `get_saved_one_click_shortcuts` in `undoc_api.rs`:
soft_ttl ONE_DAY, hard_ttl ONE_WEEK, negative_ttl one second, stale
service allowed. -/
def oneClickOptions : CacheGetOptions :=
  ⟨"undoc-api", "one-click-shortcuts", 86400, 86400 * 7, 1, true⟩

/-- Modelled from the spec: the Single-Flight Coordinator's bookkeeping
for one key, observed abstractly. `invocations` counts how many times
the Computation was started, `inflight` holds the callers waiting on
the current in-flight computation, `delivered` records which caller
received which result. -/
structure SingleFlightState (α : Type) where
  invocations : Nat
  inflight : Option (List Nat)
  delivered : List (Nat × α)

/-- Modelled from the spec: the initial coordinator state for an
uncached key: nothing in flight, nothing delivered. -/
def sfInit (α : Type) : SingleFlightState α := ⟨0, none, []⟩

/-- Modelled from the spec: a caller arrives for the key. If a
computation for this key is already in flight, the caller awaits its
result (no second computation is started); otherwise a computation is
started and registered as in flight. -/
def sfArrive {α : Type} (s : SingleFlightState α) (caller : Nat) :
    SingleFlightState α :=
  match s.inflight with
  | none => ⟨s.invocations + 1, some [caller], s.delivered⟩
  | some ws => ⟨s.invocations, some (caller :: ws), s.delivered⟩

/-- Modelled from the spec: the in-flight computation completes with a
value; its result is fanned out to every caller that arrived while it
was running, and the in-flight registration is cleared. -/
def sfComplete {α : Type} (s : SingleFlightState α) (v : α) :
    SingleFlightState α :=
  match s.inflight with
  | none => s
  | some ws => ⟨s.invocations, none, ws.map (fun c => (c, v)) ++ s.delivered⟩

/-- Modelled from the spec: callers 0, 1, ..., n-1 all arrive (at t=0,
before the computation completes). -/
def sfArriveAll {α : Type} (s : SingleFlightState α) : Nat →
    SingleFlightState α
  | 0 => s
  | n + 1 => sfArrive (sfArriveAll s n) n

/-- The server's login envelope deserialized by `login_account_impl`:
`Response { client, message, status }`. -/
structure LoginAccountResponse where
  a : String
  b : String
  account_id : Nat
  client : String
  is_savvy_user : Bool
  refresh_token : Option String
  client_name : Option String
  push_token : Option String
  version_code : Option String
  version_name : Option String
  sys_version : Option String
  token : String
  token_expire_cycle : Nat
  topic : String

/-- Envelope of the login endpoint's body as deserialized in
`login_account_impl`. -/
structure LoginResponseEnvelope where
  client : LoginAccountResponse
  message : String
  status : Nat

/-- The value-construction step of `login_account_impl` in
`undoc_api.rs`: from the deserialized response it returns
`CacheComputeResult::WithTtl(resp.client, ttl)` where `ttl` is
`resp.client.token_expire_cycle` seconds. -/
def login_account_impl_result (resp : LoginResponseEnvelope) :
    CacheComputeResult LoginAccountResponse :=
  .WithTtl resp.client resp.client.token_expire_cycle

/-- Mirrors `login_account` in `undoc_api.rs`: the uncached login path
returns the computed value with `into_inner`, dropping the TTL. -/
def login_account (resp : LoginResponseEnvelope) : LoginAccountResponse :=
  (login_account_impl_result resp).into_inner

/-- The TTL computation of `login_community` in `undoc_api.rs`, in
milliseconds: `ttl_ms = expiredAt as u128 - ts_ms` (an unsigned
subtraction, which is not defined when `ts_ms > expiredAt`, modelled as
`none`), then `Duration::from_millis(ttl_ms as u64).min(ONE_DAY)`; the
cast `as u64` reduces modulo 2^64 and ONE_DAY is 86400000 ms.
`expiredAt` is the server-reported expiry in ms since the Unix epoch
(a u64 field), `now_ms` the current wall clock in ms. -/
def loginCommunityTtlMs (expiredAt now_ms : Nat) : Option Nat :=
  if now_ms ≤ expiredAt then
    some (min ((expiredAt - now_ms) % 2 ^ 64) 86400000)
  else none

/-- The API client state, mirroring `GoveeUndocumentedApi`. -/
structure GoveeUndocumentedApi where
  email : String
  password : String
  client_id : String

/-- Mirrors `GoveeUndocumentedApi::new` in `undoc_api.rs`. The UUID
library is an external collaborator, passed as the function
`uuid_v5_simple`, standing for the simple-format rendering of
`Uuid::new_v5(&Uuid::NAMESPACE_DNS, email.as_bytes())`; the source
applies it to the email bytes only. -/
def GoveeUndocumentedApi.new (uuid_v5_simple : String → String)
    (email password : String) : GoveeUndocumentedApi :=
  ⟨email, password, uuid_v5_simple email⟩

/-- Modelled from the spec: `invalidate_key` of the cache module —
fire-and-forget eviction that deletes the entry unconditionally and
never fails the caller even if no entry existed. Its `Result` return
shape is kept as `Except`. -/
def invalidate_key {α ε : Type} (topic key : String) (st : Store α ε) :
    Except String (Store α ε) :=
  .ok (storeDelete st topic key)

/-- Mirrors `invalidate_account_login` in `undoc_api.rs`: calls
`invalidate_key("undoc-api", "account-info").ok()`, discarding any
error and returning unit; the store is updated only when the call
succeeded. -/
def invalidate_account_login {α ε : Type} (st : Store α ε) :
    Store α ε × Unit :=
  match invalidate_key "undoc-api" "account-info" st with
  | .ok st2 => (st2, ())
  | .error _ => (st, ())

/-- Mirrors `invalidate_community_login` in `undoc_api.rs`: calls
`invalidate_key("undoc-api", "community-login").ok()`, discarding any
error and returning unit. -/
def invalidate_community_login {α ε : Type} (st : Store α ε) :
    Store α ε × Unit :=
  match invalidate_key "undoc-api" "community-login" st with
  | .ok st2 => (st2, ())
  | .error _ => (st, ())

/-- The cache effect of `get_device_list` in `undoc_api.rs` as a
function of the HTTP status of the device-list response: on status 401
(UNAUTHORIZED) it calls `invalidate_account_login` before returning,
otherwise it leaves the store untouched. -/
def get_device_list_cache_effect {α ε : Type} (status : Nat)
    (st : Store α ε) : Store α ε :=
  if status == 401 then (invalidate_account_login st).1 else st

/-- The cache effect of `get_saved_one_click_shortcuts` in
`undoc_api.rs` as a function of the HTTP status of the shortcuts
response: on status 401 it calls `invalidate_community_login` before
returning, otherwise it leaves the store untouched. -/
def get_one_click_cache_effect {α ε : Type} (status : Nat)
    (st : Store α ε) : Store α ε :=
  if status == 401 then (invalidate_community_login st).1 else st

/-- A JSON value, enough for the `serde_json::Value` payloads built and
carried by the scene synthesis code. -/
inductive Json where
  | null
  | bool : Bool → Json
  | num : Nat → Json
  | str : String → Json
  | arr : List Json → Json
  | obj : List (String × Json) → Json

/-- One light effect inside a scene, mirroring `LightEffectEntry` in
`undoc_api.rs` (fields not read by the synthesis code are kept as the
source declares them, with embedded JSON as `Json`). -/
structure LightEffectEntry where
  scence_param_id : Nat
  scence_name : String
  scence_param : String
  scene_code : Nat
  special_effect : List Json
  cmd_version : Nat
  scene_type : Nat
  diy_effect_code : List Json
  diy_effect_str : String
  rules : List Json
  speed_info : Json

/-- One scene of a light-effect category, mirroring `LightEffectScene`
in `undoc_api.rs`. -/
structure LightEffectScene where
  scene_id : Nat
  icon_urls : List String
  scene_name : String
  analytic_name : String
  scene_type : Nat
  scene_code : Nat
  scence_category_id : Nat
  pop_up_prompt : Nat
  scenes_hint : String
  rule : Json
  light_effects : List LightEffectEntry
  voice_url : String
  create_time : Nat

/-- A scene category, mirroring `LightEffectCategory` in
`undoc_api.rs`. -/
structure LightEffectCategory where
  category_id : Nat
  category_name : String
  scenes : List LightEffectScene

/-- One enum option of a device capability, mirroring `EnumOption` from
the platform API module as constructed in `undoc_api.rs`
(`Default::default()` for `extras` is the empty map). -/
structure EnumOption where
  name : String
  value : Json
  extras : List (String × Json)

/-- Capability parameter payload from the platform API module; the
scene synthesis code constructs the `Enum` variant. -/
inductive DeviceParameters where
  | Enum : List EnumOption → DeviceParameters

/-- Capability kinds of the platform API module; the scene synthesis
code uses `DynamicScene`. -/
inductive DeviceCapabilityKind where
  | OnOff
  | ColorSetting
  | Mode
  | Range
  | DynamicScene
deriving Repr, DecidableEq

/-- A device capability, mirroring `DeviceCapability` from the platform
API module as constructed in `undoc_api.rs`. -/
structure DeviceCapability where
  kind : DeviceCapabilityKind
  parameters : Option DeviceParameters
  alarm_type : Option Json
  event_state : Option Json
  «instance» : String

/-- The JSON value attached to a synthesized scene option:
`json!({"paramId": param_id, "id": scene_id})`. -/
def sceneEnumValue (param_id scene_id : Nat) : Json :=
  .obj [("paramId", .num param_id), ("id", .num scene_id)]

/-- The body of the scene loop in `synthesize_platform_api_scene_list`:
`if let Some(param_id) = s.light_effects.get(0).map(|e| e.scence_param_id)`
push an `EnumOption` named by the scene's name, with the first effect's
param id and the scene's id, and empty extras. -/
def scenePushStep (acc2 : List EnumOption) (s : LightEffectScene) :
    List EnumOption :=
  match (s.light_effects.get? 0).map (fun e => e.scence_param_id) with
  | some param_id =>
    acc2 ++ [⟨s.scene_name, sceneEnumValue param_id s.scene_id, []⟩]
  | none => acc2

/-- Mirrors `synthesize_platform_api_scene_list` in `undoc_api.rs`
after the catalog has been fetched: iterate the categories and their
scenes in order, pushing an option per scene with a first light effect,
then wrap the options in a single DynamicScene capability with instance
"lightScene". -/
def synthesize_platform_api_scene_list
    (catalog : List LightEffectCategory) : List DeviceCapability :=
  let options : List EnumOption :=
    catalog.foldl (fun acc c => c.scenes.foldl scenePushStep acc) []
  [⟨.DynamicScene, some (.Enum options), none, none, "lightScene"⟩]

/-- The option synthesized for one scene, when the scene has at least
one light effect: the scene's name, with the first effect's param id
and the scene's id. -/
def sceneOption? (s : LightEffectScene) : Option EnumOption :=
  match s.light_effects with
  | [] => none
  | e :: _ => some ⟨s.scene_name, sceneEnumValue e.scence_param_id s.scene_id, []⟩

/-- A sample login payload used to evaluate the login cache path on a
concrete input. -/
def sampleLoginAccount : LoginAccountResponse :=
  ⟨"A", "B", 1, "client-uuid", false, none, none, none, none, none, none,
    "tok", 100, "topic"⟩

/-- A sample login envelope with a server-declared
`token_expire_cycle` of 100 seconds. -/
def sampleLoginEnvelope : LoginResponseEnvelope :=
  ⟨sampleLoginAccount, "ok", 200⟩

/-- A sample unexpired positive entry under the account-info key. -/
def sampleAccountEntry : CacheEntry Nat String :=
  ⟨"undoc-api", "account-info", .ok 5, 0, 1000000000, 2000000000⟩

/-- A sample unexpired positive entry under the community-login key. -/
def sampleCommunityEntry : CacheEntry Nat String :=
  ⟨"undoc-api", "community-login", .ok 6, 0, 1000000000, 2000000000⟩

/-- A sample positive entry under the scenes key for sku H6072, created
at time 0 with soft expiry one day and hard expiry one week. -/
def sampleSceneEntry : CacheEntry Nat String :=
  ⟨"undoc-api", "scenes-H6072", .ok 7, 0, 86400, 604800⟩

/-- Reading back the key just written finds exactly the written entry. -/
theorem storeGet_storePut {α ε : Type} (st : Store α ε)
    (e : CacheEntry α ε) :
    storeGet (storePut st e) e.topic e.key = some e := by
  simp [storeGet, storePut, List.find?]

/-- After a delete, the key no longer resolves to any entry. -/
theorem storeGet_storeDelete {α ε : Type} (st : Store α ε)
    (topic key : String) :
    storeGet (storeDelete st topic key) topic key = none := by
  induction st with
  | nil => rfl
  | cons x xs ih =>
    by_cases hx : (x.topic == topic && x.key == key) = true
    · simpa [storeDelete, List.filter, hx] using ih
    · simp only [storeDelete, List.filter] at ih ⊢
      rw [Bool.not_eq_true] at hx
      simp [hx, storeGet, List.find?] at ih ⊢
      exact ih

/-- The foreground compute path always reports the Computation as
invoked. -/
theorem runCompute_invoked {α ε : Type} (opts : CacheGetOptions)
    (now : Nat) (st : Store α ε)
    (compute : Except ε (CacheComputeResult α)) :
    (runCompute opts now st compute).invoked = true := by
  cases compute <;> rfl

/-- C1. The claim that every cache request satisfies
soft_ttl <= hard_ttl is false at the options of login_community: the
source sets soft_ttl to ONE_DAY (86400 s) and hard_ttl to HALF_DAY
(43200 s), so soft_ttl > hard_ttl there. -/
theorem loginCommunity_ttl_order_counterexample :
    loginCommunityOptions.soft_ttl = 86400 ∧
    loginCommunityOptions.hard_ttl = 43200 ∧
    ¬ loginCommunityOptions.soft_ttl ≤ loginCommunityOptions.hard_ttl := by
  refine ⟨rfl, rfl, ?_⟩
  decide

/-- C1 (amended). Every cache request except login_community satisfies
soft_ttl <= hard_ttl (get_iot_key and login_account_cached use a
half day for both; get_scenes_for_device and
get_saved_one_click_shortcuts use one day against one week), while
login_community has soft_ttl = one day > hard_ttl = half a day; still,
every positive entry login_community writes has
soft_expiry = hard_expiry, because its Computation always supplies an
explicit TTL. -/
theorem cache_request_ttl_order_amended :
    iotKeyOptions.soft_ttl ≤ iotKeyOptions.hard_ttl ∧
    loginAccountOptions.soft_ttl ≤ loginAccountOptions.hard_ttl ∧
    (∀ sku : String,
      (getScenesOptions sku).soft_ttl ≤ (getScenesOptions sku).hard_ttl) ∧
    oneClickOptions.soft_ttl ≤ oneClickOptions.hard_ttl ∧
    loginCommunityOptions.hard_ttl < loginCommunityOptions.soft_ttl ∧
    (∀ (α ε : Type) (now ttl : Nat) (v : α),
      (@mkPositiveEntry α ε loginCommunityOptions now
          (.WithTtl v ttl)).soft_expiry =
        (@mkPositiveEntry α ε loginCommunityOptions now
          (.WithTtl v ttl)).hard_expiry) := by
  refine ⟨by decide, by decide, fun _ => by simp [getScenesOptions],
    by decide, by decide, ?_⟩
  intro α ε now ttl v
  rfl

/-- C2. A Computation result carrying an explicit TTL overrides the
configured tiers: login_account_impl returns the login response paired
with a TTL of exactly token_expire_cycle seconds, the entry written for
it at time 0 has both expiries equal to that TTL, and a query at any
time t at or past the TTL (even while the configured half-day soft_ttl
has not elapsed) invokes the Computation again. -/
theorem explicit_ttl_overrides_configured_ttl
    (resp : LoginResponseEnvelope)
    (st : Store LoginAccountResponse String) (t : Nat)
    (compute : Except String (CacheComputeResult LoginAccountResponse))
    (h1 : resp.client.token_expire_cycle ≤ t)
    (h2 : t < loginAccountOptions.soft_ttl) :
    login_account_impl_result resp =
      .WithTtl resp.client resp.client.token_expire_cycle ∧
    (@mkPositiveEntry LoginAccountResponse String loginAccountOptions 0
        (login_account_impl_result resp)).soft_expiry =
      resp.client.token_expire_cycle ∧
    (@mkPositiveEntry LoginAccountResponse String loginAccountOptions 0
        (login_account_impl_result resp)).hard_expiry =
      resp.client.token_expire_cycle ∧
    (cache_get loginAccountOptions t
        (storePut st (mkPositiveEntry loginAccountOptions 0
          (login_account_impl_result resp))) compute).invoked = true := by
  refine ⟨rfl, by simp [mkPositiveEntry, login_account_impl_result],
    by simp [mkPositiveEntry, login_account_impl_result], ?_⟩
  have hget : storeGet
      (storePut st (mkPositiveEntry loginAccountOptions 0
        (login_account_impl_result resp)))
      loginAccountOptions.topic loginAccountOptions.key =
      some (mkPositiveEntry loginAccountOptions 0
        (login_account_impl_result resp)) :=
    storeGet_storePut st _
  have hnot : ¬ t < resp.client.token_expire_cycle := Nat.not_lt.mpr h1
  simp only [cache_get]
  rw [hget]
  simp [mkPositiveEntry, login_account_impl_result, hnot,
    runCompute_invoked]

/-- C2 witness: with the sample envelope (token_expire_cycle = 100), a
query at t = 150 over the entry written at t = 0 invokes the
Computation again. -/
theorem explicit_ttl_overrides_configured_ttl_witness :
    (sampleLoginEnvelope.client.token_expire_cycle ≤ 150 ∧
      150 < loginAccountOptions.soft_ttl) ∧
    (cache_get loginAccountOptions 150
        (storePut ([] : Store LoginAccountResponse String)
          (mkPositiveEntry loginAccountOptions 0
            (login_account_impl_result sampleLoginEnvelope)))
        (.error "fail")).invoked = true :=
  ⟨⟨by decide, by decide⟩,
    (explicit_ttl_overrides_configured_ttl sampleLoginEnvelope [] 150
      (.error "fail") (by decide) (by decide)).2.2.2⟩

/-- C3. On an HTTP 401 response, get_device_list evicts the
("undoc-api", "account-info") entry and get_saved_one_click_shortcuts
evicts the ("undoc-api", "community-login") entry, for every store
state (expired by time or not). -/
theorem unauthorized_response_invalidates_entry {α ε : Type}
    (status : Nat) (st1 st2 : Store α ε) (h : status = 401) :
    storeGet (get_device_list_cache_effect status st1)
      "undoc-api" "account-info" = none ∧
    storeGet (get_one_click_cache_effect status st2)
      "undoc-api" "community-login" = none := by
  subst h
  constructor
  · simpa [get_device_list_cache_effect, invalidate_account_login,
      invalidate_key] using storeGet_storeDelete st1 "undoc-api" "account-info"
  · simpa [get_one_click_cache_effect, invalidate_community_login,
      invalidate_key] using
      storeGet_storeDelete st2 "undoc-api" "community-login"

/-- C3 witness: concrete unexpired entries under both keys are gone
after the 401 handling of each call. -/
theorem unauthorized_response_invalidates_entry_witness :
    storeGet (get_device_list_cache_effect 401 [sampleAccountEntry])
      "undoc-api" "account-info" = none ∧
    storeGet (get_one_click_cache_effect 401 [sampleCommunityEntry])
      "undoc-api" "community-login" = none :=
  unauthorized_response_invalidates_entry 401 [sampleAccountEntry]
    [sampleCommunityEntry] rfl

/-- C4. Invalidation is fire-and-forget: for every store state
(including one with no entry under the key), invalidate_key succeeds,
and both invalidate_account_login and invalidate_community_login return
unit with the entry deleted, propagating no failure. -/
theorem invalidate_never_fails_caller {α ε : Type} (st : Store α ε) :
    invalidate_key "undoc-api" "account-info" st =
      .ok (storeDelete st "undoc-api" "account-info") ∧
    invalidate_account_login st =
      (storeDelete st "undoc-api" "account-info", ()) ∧
    invalidate_community_login st =
      (storeDelete st "undoc-api" "community-login", ()) :=
  ⟨rfl, rfl, rfl⟩

/-- After n >= 1 arrivals from the initial state, exactly one
computation has been started, all n callers are registered as waiting,
and nothing has been delivered yet. -/
theorem sfArriveAll_spec {α : Type} (n : Nat) (h : 1 ≤ n) :
    ∃ ws : List Nat, sfArriveAll (sfInit α) n = ⟨1, some ws, []⟩ ∧
      ∀ i, i < n → i ∈ ws := by
  induction n with
  | zero => exact absurd h (by decide)
  | succ m ih =>
    cases Nat.eq_zero_or_pos m with
    | inl hm =>
      subst hm
      exact ⟨[0], rfl, by intro i hi; interval_cases i; simp⟩
    | inr hm =>
      obtain ⟨ws, heq, hmem⟩ := ih hm
      refine ⟨m :: ws, ?_, ?_⟩
      · show sfArrive (sfArriveAll (sfInit α) m) m = _
        rw [heq]
        rfl
      · intro i hi
        rcases Nat.lt_succ_iff_lt_or_eq.mp hi with hlt | heqi
        · exact List.mem_cons_of_mem _ (hmem i hlt)
        · subst heqi; exact List.mem_cons_self _ _

/-- C5. For every N >= 1, N concurrent calls for the same uncached key
(modelled as N arrivals at the coordinator before the computation
completes) start the Computation exactly once, and once it completes
every one of the N callers receives the identical result. -/
theorem single_flight_invokes_once {α : Type} (n : Nat) (v : α)
    (h : 1 ≤ n) :
    (sfComplete (sfArriveAll (sfInit α) n) v).invocations = 1 ∧
    (sfComplete (sfArriveAll (sfInit α) n) v).inflight = none ∧
    ∀ i, i < n → (i, v) ∈ (sfComplete (sfArriveAll (sfInit α) n) v).delivered := by
  obtain ⟨ws, heq, hmem⟩ := sfArriveAll_spec (α := α) n h
  rw [heq]
  refine ⟨rfl, rfl, ?_⟩
  intro i hi
  show (i, v) ∈ ws.map (fun c => (c, v)) ++ []
  simp only [List.append_nil, List.mem_map]
  exact ⟨i, hmem i hi, rfl⟩

/-- C5 witness: three concurrent callers for an uncached key observe a
single invocation, and each of them receives the computed value 42. -/
theorem single_flight_invokes_once_witness :
    (sfComplete (sfArriveAll (sfInit Nat) 3) 42).invocations = 1 ∧
    (sfComplete (sfArriveAll (sfInit Nat) 3) 42).inflight = none ∧
    ∀ i, i < 3 →
      (i, 42) ∈ (sfComplete (sfArriveAll (sfInit Nat) 3) 42).delivered :=
  single_flight_invokes_once 3 42 (by decide)

/-- C6. Under the options of login_account_cached (negative_ttl ten
seconds), a Computation failing at t=0 for an uncached key writes a
negative entry and surfaces the failure as freshly computed; a call at
t=5 replays the identical error without invoking its Computation; a
call at t=11 (on the store as left by the t=5 call) invokes its
Computation anew. -/
theorem negative_cache_replay_then_expiry
    (st : Store LoginAccountResponse String) (e : String)
    (c5 c11 : Except String (CacheComputeResult LoginAccountResponse))
    (h : storeGet st loginAccountOptions.topic loginAccountOptions.key
      = none) :
    (cache_get loginAccountOptions 0 st (.error e)).invoked = true ∧
    (cache_get loginAccountOptions 0 st (.error e)).result =
      .error (.computed e) ∧
    (cache_get loginAccountOptions 5
        (cache_get loginAccountOptions 0 st (.error e)).store c5).result =
      .error (.replay e) ∧
    (cache_get loginAccountOptions 5
        (cache_get loginAccountOptions 0 st (.error e)).store c5).invoked =
      false ∧
    (cache_get loginAccountOptions 11
        (cache_get loginAccountOptions 5
          (cache_get loginAccountOptions 0 st (.error e)).store c5).store
        c11).invoked = true := by
  have h0 : cache_get loginAccountOptions 0 st (.error e) =
      ⟨.error (.computed e),
        storePut st (mkNegativeEntry loginAccountOptions 0 e), true,
        false⟩ := by
    simp only [cache_get]
    rw [h]
    rfl
  have hget : storeGet
      (storePut st (mkNegativeEntry loginAccountOptions 0 e))
      loginAccountOptions.topic loginAccountOptions.key =
      some (mkNegativeEntry loginAccountOptions 0 e) :=
    storeGet_storePut st _
  have h5 : cache_get loginAccountOptions 5
      (storePut st (mkNegativeEntry loginAccountOptions 0 e)) c5 =
      ⟨.error (.replay e),
        storePut st (mkNegativeEntry loginAccountOptions 0 e), false,
        false⟩ := by
    simp only [cache_get]
    rw [hget]
    simp [mkNegativeEntry, loginAccountOptions]
  have h11 : (cache_get loginAccountOptions 11
      (storePut st (mkNegativeEntry loginAccountOptions 0 e))
      c11).invoked = true := by
    simp only [cache_get]
    rw [hget]
    simp [mkNegativeEntry, loginAccountOptions, runCompute_invoked]
  rw [h0]
  exact ⟨rfl, rfl, by rw [h5], by rw [h5], by rw [h5]; exact h11⟩

/-- C6 witness: starting from the empty store, a failure at t=0 is
replayed at t=5 without invocation and recomputed at t=11. -/
theorem negative_cache_replay_then_expiry_witness :
    (cache_get loginAccountOptions 0
        ([] : Store LoginAccountResponse String) (.error "boom")).invoked
      = true ∧
    (cache_get loginAccountOptions 0
        ([] : Store LoginAccountResponse String) (.error "boom")).result =
      .error (.computed "boom") ∧
    (cache_get loginAccountOptions 5
        (cache_get loginAccountOptions 0
          ([] : Store LoginAccountResponse String)
          (.error "boom")).store (.error "later")).result =
      .error (.replay "boom") ∧
    (cache_get loginAccountOptions 5
        (cache_get loginAccountOptions 0
          ([] : Store LoginAccountResponse String)
          (.error "boom")).store (.error "later")).invoked = false ∧
    (cache_get loginAccountOptions 11
        (cache_get loginAccountOptions 5
          (cache_get loginAccountOptions 0
            ([] : Store LoginAccountResponse String)
            (.error "boom")).store (.error "later")).store
        (.error "again")).invoked = true :=
  negative_cache_replay_then_expiry [] "boom" (.error "later")
    (.error "again") rfl

/-- C7. For every options record (stale service allowed or not) and
every positive entry whose hard_expiry is at or before the query time,
get_or_compute runs the Computation synchronously: the outcome is
exactly the foreground recompute outcome, the Computation is invoked,
and the result returned is the fresh computation's result, never the
stored stale payload. The entry is assumed well-formed
(soft_expiry <= hard_expiry), the documented invariant for positive
entries. -/
theorem hard_expiry_forces_synchronous_recompute {α ε : Type}
    (opts : CacheGetOptions) (st : Store α ε) (now : Nat)
    (compute : Except ε (CacheComputeResult α))
    (ent : CacheEntry α ε) (v : α)
    (h1 : storeGet st opts.topic opts.key = some ent)
    (h2 : ent.payload = .ok v)
    (h3 : ent.soft_expiry ≤ ent.hard_expiry)
    (h4 : ent.hard_expiry ≤ now) :
    cache_get opts now st compute = runCompute opts now st compute ∧
    (cache_get opts now st compute).invoked = true ∧
    (cache_get opts now st compute).result =
      (match compute with
       | .ok r => .ok r.into_inner
       | .error err => .error (.computed err)) := by
  cases ent with
  | mk tp k pl ca se he =>
    have hsoft : ¬ now < se := Nat.not_lt.mpr (le_trans h3 h4)
    have hhard : ¬ now < he := Nat.not_lt.mpr h4
    have h2' : pl = .ok v := h2
    subst h2'
    have hmain : cache_get opts now st compute =
        runCompute opts now st compute := by
      simp only [cache_get]
      rw [h1]
      simp [hsoft, hhard]
    refine ⟨hmain, ?_, ?_⟩
    · rw [hmain]; exact runCompute_invoked opts now st compute
    · rw [hmain]; cases compute <;> rfl

/-- C7 witness: under the options of get_scenes_for_device for sku
H6072 (allow_stale true, soft one day, hard one week), a query at t =
eight days over an entry created at t=0 recomputes and returns the
fresh value 9, not the stored 7. -/
theorem hard_expiry_forces_synchronous_recompute_witness :
    ((getScenesOptions "H6072").allow_stale = true ∧
      sampleSceneEntry.hard_expiry ≤ 691200) ∧
    (cache_get (getScenesOptions "H6072") 691200 [sampleSceneEntry]
        (.ok (.Value 9))).invoked = true ∧
    (cache_get (getScenesOptions "H6072") 691200 [sampleSceneEntry]
        (.ok (.Value 9))).result = .ok 9 :=
  ⟨⟨rfl, by decide⟩,
    (hard_expiry_forces_synchronous_recompute (getScenesOptions "H6072")
      [sampleSceneEntry] 691200 (.ok (.Value 9)) sampleSceneEntry 7
      rfl rfl (by decide) (by decide)).2⟩

/-- C9. The client_id produced by GoveeUndocumentedApi::new is a
function of the email alone: it is the UUIDv5 rendering of the email
bytes, and any two constructions with the same email and arbitrary
passwords yield equal client_id values. -/
theorem client_id_depends_only_on_email
    (uuid_v5_simple : String → String) (email p1 p2 : String) :
    (GoveeUndocumentedApi.new uuid_v5_simple email p1).client_id =
      (GoveeUndocumentedApi.new uuid_v5_simple email p2).client_id ∧
    (GoveeUndocumentedApi.new uuid_v5_simple email p1).client_id =
      uuid_v5_simple email :=
  ⟨rfl, rfl⟩

/-- C8. When the server-reported expiredAt (ms since the epoch, a u64)
is at or after the current time, the explicit TTL of login_community
equals min(expiredAt - now, one day) milliseconds — the cast through
u64 loses nothing because the difference is below 2^64; when expiredAt
is earlier than the current time the unsigned subtraction underflows
and the computation is not well-defined (modelled as none). -/
theorem login_community_ttl_characterization (expiredAt now_ms : Nat)
    (hbound : expiredAt < 2 ^ 64) :
    (now_ms ≤ expiredAt →
      loginCommunityTtlMs expiredAt now_ms =
        some (min (expiredAt - now_ms) 86400000)) ∧
    (expiredAt < now_ms → loginCommunityTtlMs expiredAt now_ms = none) := by
  constructor
  · intro hle
    have hlt : expiredAt - now_ms < 2 ^ 64 :=
      lt_of_le_of_lt (Nat.sub_le _ _) hbound
    unfold loginCommunityTtlMs
    rw [if_pos hle, Nat.mod_eq_of_lt hlt]
  · intro hgt
    unfold loginCommunityTtlMs
    rw [if_neg (Nat.not_le.mpr hgt)]

/-- C8 witness: with expiredAt 1000000 ms and now 600000 ms the TTL is
the 400000 ms remaining, capped at one day. -/
theorem login_community_ttl_characterization_witness :
    (1000000 < 2 ^ 64 ∧ 600000 ≤ 1000000) ∧
    loginCommunityTtlMs 1000000 600000 =
      some (min (1000000 - 600000) 86400000) :=
  ⟨⟨by decide, by decide⟩,
    (login_community_ttl_characterization 1000000 600000 (by decide)).1
      (by decide)⟩

/-- Folding the scene-push step over a list of scenes appends exactly
the options of the scenes that have a first light effect, in order. -/
theorem foldl_scenePushStep (scenes : List LightEffectScene)
    (acc : List EnumOption) :
    scenes.foldl scenePushStep acc = acc ++ scenes.filterMap sceneOption? := by
  induction scenes generalizing acc with
  | nil => simp
  | cons s rest ih =>
    cases hs : s.light_effects with
    | nil =>
      have hstep : scenePushStep acc s = acc := by
        simp [scenePushStep, hs]
      simp [List.foldl, hstep, ih, sceneOption?, hs]
    | cons e tail =>
      have hstep : scenePushStep acc s =
          acc ++ [⟨s.scene_name, sceneEnumValue e.scence_param_id
            s.scene_id, []⟩] := by
        simp [scenePushStep, hs]
      simp [List.foldl, hstep, ih, sceneOption?, hs, List.append_assoc]

/-- Folding the scene loop over the categories appends the options of
every category's qualifying scenes, in catalog order. -/
theorem foldl_categories_scenePushStep (catalog : List LightEffectCategory)
    (acc : List EnumOption) :
    catalog.foldl (fun a c => c.scenes.foldl scenePushStep a) acc =
      acc ++ catalog.flatMap (fun c => c.scenes.filterMap sceneOption?) := by
  induction catalog generalizing acc with
  | nil => simp
  | cons c rest ih =>
    rw [List.foldl_cons]
    show List.foldl _ (c.scenes.foldl scenePushStep acc) rest = _
    rw [foldl_scenePushStep, ih]
    simp [List.append_assoc]

/-- C10. synthesize_platform_api_scene_list returns exactly one
DeviceCapability, of kind DynamicScene with instance "lightScene",
whose enum options are exactly the scenes, in catalog order, that have
at least one light effect (scenes with no light effects are skipped),
each named by the scene's scene_name and carrying the first effect's
scence_param_id and the scene's scene_id. -/
theorem synthesize_scene_list_characterization
    (catalog : List LightEffectCategory) :
    synthesize_platform_api_scene_list catalog =
      [⟨.DynamicScene,
        some (.Enum
          (catalog.flatMap fun c => c.scenes.filterMap sceneOption?)),
        none, none, "lightScene"⟩] := by
  simp [synthesize_platform_api_scene_list, foldl_categories_scenePushStep]

end Govee
